import Mathlib

/-!
Shallow embedding of the GPU compute core of this repository,
`src/m3_ide/metal_utils.py` (class `MetalCompute`): the host-side state of an
instance, device-call oracles standing for the Metal API (each native call
either succeeds, possibly returning a value the oracle chooses, or raises,
which the source catches in its `try`/`except` blocks), and the trace of
command-encoder events each method issues.  Machine floats are modelled as
rationals (kernel scalar arguments) and reals (the positional-encoding
table); buffers are modelled by identity and byte length, since the shader
source `Shaders.metal` is not part of the repository and only host-side
behaviour is at issue.
-/

namespace MetalModel

/-- `MetalCompute.EMBEDDING_DIM` (metal_utils.py, line 37). -/
def EMBEDDING_DIM : ℕ := 256

/-- `MetalCompute.MAX_SEQ_LENGTH` (metal_utils.py, line 38). -/
def MAX_SEQ_LENGTH : ℕ := 512

/-- Element types of the numpy arrays the methods handle. -/
inductive DType
  | float32
  | uint8
  | uint32
deriving DecidableEq

/-- Bytes per element (numpy itemsize). -/
def DType.itemsize : DType → ℕ
  | .float32 => 4
  | .uint8 => 1
  | .uint32 => 4

/-- Shape-and-dtype level model of a numpy ndarray.  The methods of
`MetalCompute` only inspect `len`, `size`, `nbytes`, `shape` and the raw
bytes of their array arguments, so values are not carried. -/
structure NDArray where
  shape : List ℕ
  dtype : DType
deriving DecidableEq

/-- numpy `a.size`: the product of the dimensions. -/
def NDArray.size (a : NDArray) : ℕ := a.shape.prod

/-- Python `len(a)`: the first dimension. -/
def NDArray.len (a : NDArray) : ℕ := a.shape.headD 0

/-- numpy `a.nbytes = a.size * a.itemsize`. -/
def NDArray.nbytes (a : NDArray) : ℕ := a.size * a.dtype.itemsize

/-- A compiled compute pipeline object: the embedding keeps the one device
capability the source reads, `maxTotalThreadsPerThreadgroup`. -/
structure PipelineState where
  maxTotalThreads : ℕ
deriving DecidableEq

/-- A Metal buffer, by identity and byte length. -/
structure GPUBuffer where
  id : ℕ
  byteLength : ℕ
deriving DecidableEq

/-- The mutable attributes of a `MetalCompute` instance (metal_utils.py,
lines 40-49): the pipeline dictionary, the shared buffer dictionary and the
two quantization constants.  Dictionaries are association lists in insertion
order. -/
structure MCState where
  pipelines : List (String × PipelineState)
  shared_buffers : List (String × GPUBuffer)
  scale : ℚ
  zero_point : ℚ
deriving DecidableEq

/-- `MetalCompute.__init__` (lines 40-49): empty dictionaries,
`scale = 0.1`, `zero_point = 128.0`. -/
def mkMetalCompute : MCState :=
  { pipelines := [], shared_buffers := [], scale := 1 / 10, zero_point := 128 }

/-- Python dict assignment `d[key] = v`: overwrite in place, else append. -/
def dictSet {α : Type} (l : List (String × α)) (key : String) (v : α) :
    List (String × α) :=
  if l.any (fun p => p.1 = key) then
    l.map (fun p => if p.1 = key then (key, v) else p)
  else l ++ [(key, v)]

/-- A scalar kernel argument passed with `setBytes_length_atIndex_`:
either an integer constant (`int.to_bytes` / `np.uint32`) or a float32
constant, with its byte length. -/
inductive KernelArg
  | natLE (value byteLen : ℕ)
  | float32 (value : ℚ) (byteLen : ℕ)
deriving DecidableEq

/-- One command-encoder call observable by the device.  A `dispatch` event
carries the name of the pipeline set on the issuing encoder together with the
threadgroup grid and the threads-per-threadgroup tuple passed to
`dispatchThreadgroups_threadsPerThreadgroup_`. -/
inductive Event
  | newBufferBytes (bufId elems nbytes : ℕ)
  | newBufferLength (bufId nbytes : ℕ)
  | setPipelineState (pipeline_name : String)
  | setBuffer (bufId offset index : ℕ)
  | setBytes (arg : KernelArg) (index : ℕ)
  | dispatch (pipeline_name : String) (grid tgroup : ℕ × ℕ × ℕ)
deriving DecidableEq

/-- Oracle for the device calls one `process_batch` / `quantize_embeddings`
call makes.  A `…Ok := false` field means that native call raises, sending
control to the method's `except` branch. -/
structure DeviceRun where
  inputBufId : ℕ
  outputBufId : ℕ
  inputBufOk : Bool
  outputBufOk : Bool
  encoderOk : Bool
  dispatchOk : Bool
  commitOk : Bool
  readOk : Bool
deriving DecidableEq

/-- What a method returns, together with the instance state after the call
(the four request methods assign no attribute, so they return `self`
unchanged) and the events it encoded. -/
structure MethodOut (α : Type) where
  result : α
  state : MCState
  events : List Event

/-- The `seq_length` default of `process_batch` (line 122-123):
`min(len(input_data), MAX_SEQ_LENGTH)` when the caller passed `None`. -/
def seqLenOf (input_data : NDArray) (seq_length? : Option ℕ) : ℕ :=
  seq_length?.getD (min input_data.len MAX_SEQ_LENGTH)

/-- The extra encoder bindings of `process_batch` (lines 149-166): for
`"embed"` the shared positional-encoding buffer and the 4-byte little-endian
`seq_length`; for `"infer"` the two layer-norm buffers and `seq_length`.
`none` models the `KeyError` raised when the shared dictionary lacks the
entry (caught by the method's `except`). -/
def extraBindings (st : MCState) (pipeline_name : String) (seq_length : ℕ) :
    Option (List Event) :=
  if pipeline_name = "embed" then
    (st.shared_buffers.lookup "position_encodings").map fun pe =>
      [Event.setBuffer pe.id 0 2, Event.setBytes (KernelArg.natLE seq_length 4) 3]
  else if pipeline_name = "infer" then
    match st.shared_buffers.lookup "layer_norm_weights",
        st.shared_buffers.lookup "layer_norm_bias" with
    | some w, some b =>
        some [Event.setBuffer w.id 0 2, Event.setBuffer b.id 0 3,
          Event.setBytes (KernelArg.natLE seq_length 4) 4]
    | _, _ => none
  else some []

/-- Grid and threadgroup sizing of `process_batch` (lines 168-176):
`"attention"` gets a 2-D `seq_length × seq_length` grid with a fixed 16×16
threadgroup; every other pipeline a 1-D grid with
`threads_per_group = min(pipeline.maxTotalThreadsPerThreadgroup, input_data.size)`
and `threadgroups = (input_data.size + threads_per_group - 1) // threads_per_group`.
`none` models the `ZeroDivisionError` the Python division raises when
`threads_per_group` is 0 (empty input). -/
def gridFor (pipeline_name : String) (pipeline : PipelineState)
    (seq_length elems : ℕ) : Option ((ℕ × ℕ × ℕ) × (ℕ × ℕ × ℕ)) :=
  if pipeline_name = "attention" then
    some ((seq_length, seq_length, 1), (16, 16, 1))
  else
    let tpg := min pipeline.maxTotalThreads elems
    if tpg = 0 then none
    else some (((elems + tpg - 1) / tpg, 1, 1), (tpg, 1, 1))

/-- `MetalCompute.process_batch` (lines 112-197).  Returns `None` when the
pipeline is unknown or any step of the `try` block raises; otherwise the
output buffer is read back with the input's dtype and reshaped to the
input's shape.  The full `input_data.tobytes()` is always bound. -/
def process_batch (st : MCState) (dev : DeviceRun) (pipeline_name : String)
    (input_data : NDArray) (seq_length? : Option ℕ) :
    MethodOut (Option NDArray) :=
  match st.pipelines.lookup pipeline_name with
  | none => ⟨none, st, []⟩
  | some pipeline =>
    let seq_length := seqLenOf input_data seq_length?
    if dev.inputBufOk = false then ⟨none, st, []⟩ else
    let evs1 := [Event.newBufferBytes dev.inputBufId input_data.size input_data.nbytes]
    if dev.outputBufOk = false then ⟨none, st, evs1⟩ else
    let evs2 := evs1 ++ [Event.newBufferLength dev.outputBufId input_data.nbytes]
    if dev.encoderOk = false then ⟨none, st, evs2⟩ else
    let evs3 := evs2 ++
      [Event.setPipelineState pipeline_name,
        Event.setBuffer dev.inputBufId 0 0,
        Event.setBuffer dev.outputBufId 0 1]
    match extraBindings st pipeline_name seq_length with
    | none => ⟨none, st, evs3⟩
    | some extra =>
      let evs4 := evs3 ++ extra
      match gridFor pipeline_name pipeline seq_length input_data.size with
      | none => ⟨none, st, evs4⟩
      | some (grid, tgroup) =>
        if dev.dispatchOk = false then ⟨none, st, evs4⟩ else
        let evs5 := evs4 ++ [Event.dispatch pipeline_name grid tgroup]
        if dev.commitOk = false then ⟨none, st, evs5⟩ else
        if dev.readOk = false then ⟨none, st, evs5⟩ else
        ⟨some ⟨input_data.shape, input_data.dtype⟩, st, evs5⟩

/-- The four per-stage device oracles of one `process_sequence` call. -/
structure SeqDevice where
  embedDev : DeviceRun
  attentionDev : DeviceRun
  feedforwardDev : DeviceRun
  inferDev : DeviceRun
deriving DecidableEq

/-- `MetalCompute.process_sequence` (lines 199-223): the four stages in
order, each aborting the rest on `None`; `process_batch` itself never
raises, so the outer `try` adds nothing. -/
def process_sequence (st : MCState) (dev : SeqDevice) (input_sequence : NDArray) :
    MethodOut (Option NDArray) :=
  let r1 := process_batch st dev.embedDev "embed" input_sequence none
  match r1.result with
  | none => ⟨none, st, r1.events⟩
  | some embedded =>
    let r2 := process_batch st dev.attentionDev "attention" embedded none
    match r2.result with
    | none => ⟨none, st, r1.events ++ r2.events⟩
    | some attended =>
      let r3 := process_batch st dev.feedforwardDev "feedforward" attended none
      match r3.result with
      | none => ⟨none, st, r1.events ++ r2.events ++ r3.events⟩
      | some ffw =>
        let r4 := process_batch st dev.inferDev "infer" ffw none
        ⟨r4.result, st, r1.events ++ r2.events ++ r3.events ++ r4.events⟩

/-- `MetalCompute.quantize_embeddings` (lines 225-286).  The output buffer
is `embeddings.size` bytes, read back as uint8 and reshaped to the input
shape; `scale` and `zero_point` are bound as 4-byte float32 constants at
indices 2 and 3.  Any raise inside the `try` yields `None`. -/
def quantize_embeddings (st : MCState) (dev : DeviceRun) (embeddings : NDArray) :
    MethodOut (Option NDArray) :=
  if dev.inputBufOk = false then ⟨none, st, []⟩ else
  let evs1 := [Event.newBufferBytes dev.inputBufId embeddings.size embeddings.nbytes]
  if dev.outputBufOk = false then ⟨none, st, evs1⟩ else
  let evs2 := evs1 ++ [Event.newBufferLength dev.outputBufId embeddings.size]
  if dev.encoderOk = false then ⟨none, st, evs2⟩ else
  match st.pipelines.lookup "quantize_embeddings" with
  | none => ⟨none, st, evs2⟩
  | some pipeline =>
    let evs3 := evs2 ++
      [Event.setPipelineState "quantize_embeddings",
        Event.setBuffer dev.inputBufId 0 0,
        Event.setBuffer dev.outputBufId 0 1,
        Event.setBytes (KernelArg.float32 st.scale 4) 2,
        Event.setBytes (KernelArg.float32 st.zero_point 4) 3]
    let tpg := min pipeline.maxTotalThreads embeddings.size
    if tpg = 0 then ⟨none, st, evs3⟩ else
    if dev.dispatchOk = false then ⟨none, st, evs3⟩ else
    let evs4 := evs3 ++
      [Event.dispatch "quantize_embeddings"
        ((embeddings.size + tpg - 1) / tpg, 1, 1) (tpg, 1, 1)]
    if dev.commitOk = false then ⟨none, st, evs4⟩ else
    if dev.readOk = false then ⟨none, st, evs4⟩ else
    ⟨some ⟨embeddings.shape, DType.uint8⟩, st, evs4⟩

/-- Oracle for the device calls of one `ip_search` call.  The readback
functions give the uint32 / float32 words of the `indices` and `top_scores`
buffers after completion (the kernels are outside the repository). -/
structure SearchDevice where
  queryBufId : ℕ
  databaseBufId : ℕ
  scoresBufId : ℕ
  indicesBufId : ℕ
  topScoresBufId : ℕ
  queryBufOk : Bool
  databaseBufOk : Bool
  scoresBufOk : Bool
  indicesBufOk : Bool
  topScoresBufOk : Bool
  encoder1Ok : Bool
  encoder2Ok : Bool
  commitOk : Bool
  readOk : Bool
  idxData : ℕ → ℕ
  scoreData : ℕ → ℚ

/-- `MetalCompute.ip_search` (lines 288-391).  `num_vectors = len(database)`,
`vector_dim = database.shape[1]` (an `IndexError` for arrays of fewer than
two dimensions).  The `indices` and `top_scores` buffers hold `k` four-byte
entries each; `np.frombuffer` therefore yields `k` words and the final
`[:k]` slice keeps them all.  `(none)` models the Python `(None, None)`.
The five buffer allocations (lines 298-323), in order. -/
def searchAllocEvents (dev : SearchDevice) (query database : NDArray)
    (num_vectors k : ℕ) : List Event :=
  [Event.newBufferBytes dev.queryBufId query.size query.nbytes,
    Event.newBufferBytes dev.databaseBufId database.size database.nbytes,
    Event.newBufferLength dev.scoresBufId (num_vectors * 4),
    Event.newBufferLength dev.indicesBufId (k * 4),
    Event.newBufferLength dev.topScoresBufId (k * 4)]

/-- The first encoder's bindings and score-phase dispatch (lines 329-351):
`threads_per_group = min(max, num_vectors)` and the ceiling-division group
count, 1-D. -/
def searchScoreEvents (dev : SearchDevice) (pl1 : PipelineState)
    (num_vectors vector_dim : ℕ) : List Event :=
  [Event.setPipelineState "ip_search",
    Event.setBuffer dev.queryBufId 0 0,
    Event.setBuffer dev.databaseBufId 0 1,
    Event.setBuffer dev.scoresBufId 0 2,
    Event.setBytes (KernelArg.natLE num_vectors 4) 3,
    Event.setBytes (KernelArg.natLE vector_dim 4) 4,
    Event.dispatch "ip_search"
      ((num_vectors + min pl1.maxTotalThreads num_vectors - 1) /
          min pl1.maxTotalThreads num_vectors, 1, 1)
      (min pl1.maxTotalThreads num_vectors, 1, 1)]

/-- The second encoder's bindings and top-k dispatch (lines 354-370):
a single thread-group of `min(num_vectors, 256)` threads. -/
def searchTopkEvents (dev : SearchDevice) (num_vectors k : ℕ) : List Event :=
  [Event.setPipelineState "topk_reduce",
    Event.setBuffer dev.scoresBufId 0 0,
    Event.setBuffer dev.indicesBufId 0 1,
    Event.setBuffer dev.topScoresBufId 0 2,
    Event.setBytes (KernelArg.natLE num_vectors 4) 3,
    Event.setBytes (KernelArg.natLE k 4) 4,
    Event.dispatch "topk_reduce" (1, 1, 1) (min num_vectors 256, 1, 1)]

/-- The top-k reduction phase of `ip_search` (lines 354-387): second
encoder, its bindings and single-group dispatch, commit/wait, and the
readback `indices[:k]`, `scores[:k]` of the two k-entry buffers; `evs` are
the events already encoded by the allocation and score phases. -/
def searchTopkPhase (st : MCState) (dev : SearchDevice) (evs : List Event)
    (num_vectors k : ℕ) : MethodOut (Option (List ℕ × List ℚ)) :=
  match st.pipelines.lookup "topk_reduce" with
  | none => ⟨none, st, evs⟩
  | some _ =>
    if dev.commitOk = false then
      ⟨none, st, evs ++ searchTopkEvents dev num_vectors k⟩ else
    if dev.readOk = false then
      ⟨none, st, evs ++ searchTopkEvents dev num_vectors k⟩ else
    ⟨some (((List.range k).map dev.idxData).take k,
      ((List.range k).map dev.scoreData).take k), st,
      evs ++ searchTopkEvents dev num_vectors k⟩

/-- `MetalCompute.ip_search` (lines 288-391), assembled from the event lists
above; a failure at any step keeps the events already encoded. -/
def ip_search (st : MCState) (dev : SearchDevice) (query database : NDArray)
    (k : ℕ) : MethodOut (Option (List ℕ × List ℚ)) :=
  match database.shape with
  | [] => ⟨none, st, []⟩
  | [_] => ⟨none, st, []⟩
  | num_vectors :: vector_dim :: _ =>
    if dev.queryBufOk = false then ⟨none, st, []⟩ else
    if dev.databaseBufOk = false then
      ⟨none, st, (searchAllocEvents dev query database num_vectors k).take 1⟩ else
    if dev.scoresBufOk = false then
      ⟨none, st, (searchAllocEvents dev query database num_vectors k).take 2⟩ else
    if dev.indicesBufOk = false then
      ⟨none, st, (searchAllocEvents dev query database num_vectors k).take 3⟩ else
    if dev.topScoresBufOk = false then
      ⟨none, st, (searchAllocEvents dev query database num_vectors k).take 4⟩ else
    if dev.encoder1Ok = false then
      ⟨none, st, searchAllocEvents dev query database num_vectors k⟩ else
    match st.pipelines.lookup "ip_search" with
    | none => ⟨none, st, searchAllocEvents dev query database num_vectors k⟩
    | some pl1 =>
      if min pl1.maxTotalThreads num_vectors = 0 then
        ⟨none, st, searchAllocEvents dev query database num_vectors k ++
          (searchScoreEvents dev pl1 num_vectors vector_dim).take 6⟩ else
      if dev.encoder2Ok = false then
        ⟨none, st, searchAllocEvents dev query database num_vectors k ++
          searchScoreEvents dev pl1 num_vectors vector_dim⟩ else
      searchTopkPhase st dev
        (searchAllocEvents dev query database num_vectors k ++
          searchScoreEvents dev pl1 num_vectors vector_dim) num_vectors k

/-- Oracle for `MetalCompute.initialize`: whether the shader library
compiles, which entry points resolve, which pipeline objects get built, and
the identities of the shared buffers the device hands back. -/
structure InitDevice where
  loadOk : Bool
  getFn : String → Bool
  mkPipeline : String → Option PipelineState
  bufId : String → ℕ

/-- The required entry points (metal_utils.py, lines 56-59). -/
def pipeline_functions : List String :=
  ["embed", "attention", "feedforward", "infer",
    "quantize_embeddings", "ip_search", "topk_reduce"]

/-- The loop of `MetalCompute.initialize` (lines 61-74): resolve each
function, build its pipeline, store it in `self.pipelines`, returning
`False` at the first failure — with every pipeline stored so far kept. -/
def addPipelines (dev : InitDevice) : List String → MCState → Bool × MCState
  | [], st => (true, st)
  | name :: rest, st =>
    if dev.getFn name = false then (false, st)
    else
      match dev.mkPipeline name with
      | none => (false, st)
      | some p =>
        addPipelines dev rest { st with pipelines := dictSet st.pipelines name p }

/-- `MetalCompute._initialize_shared_buffers` (lines 80-110): the
positional-encoding buffer of `MAX_SEQ_LENGTH × EMBEDDING_DIM` float32
entries and the two length-4 float32 layer-norm buffers. -/
def initialize_shared_buffers (st : MCState) (dev : InitDevice) : MCState :=
  let pe : GPUBuffer := ⟨dev.bufId "position_encodings", MAX_SEQ_LENGTH * EMBEDDING_DIM * 4⟩
  let lnw : GPUBuffer := ⟨dev.bufId "layer_norm_weights", 16⟩
  let lnb : GPUBuffer := ⟨dev.bufId "layer_norm_bias", 16⟩
  { st with shared_buffers :=
      dictSet (dictSet (dictSet st.shared_buffers "position_encodings" pe)
        "layer_norm_weights" lnw) "layer_norm_bias" lnb }

/-- `MetalCompute.initialize` (lines 51-78): compile the library, build the
seven pipelines, then build the shared buffers; `False` on the first
failure. -/
def initializeCompute (st : MCState) (dev : InitDevice) : Bool × MCState :=
  if dev.loadOk = false then (false, st)
  else
    match addPipelines dev pipeline_functions st with
    | (false, st2) => (false, st2)
    | (true, st2) => (true, initialize_shared_buffers st2 dev)

/-- The positional-encoding table of `_initialize_shared_buffers`
(lines 82-87), as the exact real it computes per cell: the loop writes each
cell exactly once — `sin(pos / 10000 ** (i / EMBEDDING_DIM))` at each even
column `i` and `cos` of the same argument at column `i + 1` (the
`i + 1 < EMBEDDING_DIM` guard always holds since `EMBEDDING_DIM` is even),
so an odd column `j` holds the `cos` with exponent `(j - 1) / EMBEDDING_DIM`. -/
noncomputable def position_encodings
    (pos : Fin MAX_SEQ_LENGTH) (i : Fin EMBEDDING_DIM) : ℝ :=
  if i.val % 2 = 0 then
    Real.sin ((pos.val : ℝ) / (10000 : ℝ) ^ ((i.val : ℝ) / (EMBEDDING_DIM : ℝ)))
  else
    Real.cos ((pos.val : ℝ) / (10000 : ℝ) ^ (((i.val - 1 : ℕ) : ℝ) / (EMBEDDING_DIM : ℝ)))

/-! ### Helper lemmas -/

/-- Ceiling division: the integer form used by the source equals the
mathematical ceiling the spec states. -/
theorem nat_ceil_div (a b : ℕ) (hb : 0 < b) :
    (((a + b - 1) / b : ℕ) : ℤ) = ⌈(a : ℚ) / (b : ℚ)⌉ := by
  have hbq : (0 : ℚ) < (b : ℚ) := by exact_mod_cast hb
  obtain ⟨r, hr, hsum⟩ : ∃ r, r < b ∧ b * ((a + b - 1) / b) + r = a + b - 1 :=
    ⟨_, Nat.mod_lt _ hb, Nat.div_add_mod _ _⟩
  set q := (a + b - 1) / b with hqdef
  set m := b * q with hm
  have I1 : a ≤ m := by omega
  have I2 : m < a + b := by omega
  have hmq : (m : ℚ) = (b : ℚ) * (q : ℚ) := by exact_mod_cast hm
  have hI1 : (a : ℚ) ≤ (m : ℚ) := by exact_mod_cast I1
  have hI2 : (m : ℚ) < (a : ℚ) + (b : ℚ) := by exact_mod_cast I2
  rw [eq_comm, Int.ceil_eq_iff]
  constructor
  · push_cast
    rw [sub_lt_iff_lt_add]
    rw [show (a : ℚ) / (b : ℚ) + 1 = ((a : ℚ) + (b : ℚ)) / (b : ℚ) by field_simp]
    rw [lt_div_iff₀ hbq]
    nlinarith [hmq, hI2]
  · push_cast
    rw [div_le_iff₀ hbq]
    nlinarith [hmq, hI1]

/-- A 1-D tiling covers at least every element: `ceil(a/b) * b ≥ a`. -/
theorem ceil_mul_ge (a b : ℕ) (hb : 0 < b) : a ≤ (a + b - 1) / b * b := by
  obtain ⟨r, hr, hsum⟩ : ∃ r, r < b ∧ b * ((a + b - 1) / b) + r = a + b - 1 :=
    ⟨_, Nat.mod_lt _ hb, Nat.div_add_mod _ _⟩
  set q := (a + b - 1) / b with hqdef
  have hcomm : q * b = b * q := Nat.mul_comm q b
  rw [hcomm]
  set m := b * q with hm
  omega

/-- The extra bindings never contain a dispatch command. -/
theorem dispatch_not_mem_extra {st : MCState} {pn : String} {L : ℕ}
    {ex : List Event} (hex : extraBindings st pn L = some ex)
    (q : String) (g t : ℕ × ℕ × ℕ) : Event.dispatch q g t ∉ ex := by
  unfold extraBindings at hex
  split at hex
  · cases hpe : st.shared_buffers.lookup "position_encodings" with
    | none => rw [hpe] at hex; simp at hex
    | some pe =>
      rw [hpe] at hex
      simp only [Option.map_some'] at hex
      cases hex
      simp
  · split at hex
    · split at hex
      · cases hex; simp
      · cases hex
    · cases hex
      simp

/-- The extra bindings never create a buffer. -/
theorem newBufferBytes_not_mem_extra {st : MCState} {pn : String} {L : ℕ}
    {ex : List Event} (hex : extraBindings st pn L = some ex)
    (b e n : ℕ) : Event.newBufferBytes b e n ∉ ex := by
  unfold extraBindings at hex
  split at hex
  · cases hpe : st.shared_buffers.lookup "position_encodings" with
    | none => rw [hpe] at hex; simp at hex
    | some pe =>
      rw [hpe] at hex
      simp only [Option.map_some'] at hex
      cases hex
      simp
  · split at hex
    · split at hex
      · cases hex; simp
      · cases hex
    · cases hex
      simp

/-- Every scalar constant among the extra bindings is the little-endian
4-byte `seq_length`. -/
theorem setBytes_mem_extra {st : MCState} {pn : String} {L : ℕ}
    {ex : List Event} (hex : extraBindings st pn L = some ex)
    {arg : KernelArg} {i : ℕ} (h : Event.setBytes arg i ∈ ex) :
    arg = KernelArg.natLE L 4 := by
  unfold extraBindings at hex
  split at hex
  · cases hpe : st.shared_buffers.lookup "position_encodings" with
    | none => rw [hpe] at hex; simp at hex
    | some pe =>
      rw [hpe] at hex
      simp only [Option.map_some'] at hex
      cases hex
      simp at h
      exact h.1
  · split at hex
    · split at hex
      · cases hex
        simp at h
        exact h.1
      · cases hex
    · cases hex
      simp at h

/-- The four request methods assign no attribute of `self`. -/
theorem batch_state_eq (st : MCState) (dev : DeviceRun) (pn : String)
    (input : NDArray) (sl : Option ℕ) :
    (process_batch st dev pn input sl).state = st := by
  unfold process_batch
  repeat' first
    | rfl
    | split
    | dsimp only

/-- `process_sequence` assigns no attribute of `self`. -/
theorem seq_state_eq (st : MCState) (dev : SeqDevice) (input : NDArray) :
    (process_sequence st dev input).state = st := by
  unfold process_sequence
  repeat' first
    | rfl
    | split
    | dsimp only

/-- `quantize_embeddings` assigns no attribute of `self`. -/
theorem quantize_state_eq (st : MCState) (dev : DeviceRun) (emb : NDArray) :
    (quantize_embeddings st dev emb).state = st := by
  unfold quantize_embeddings
  repeat' first
    | rfl
    | split
    | dsimp only

/-- The top-k phase assigns no attribute of `self`. -/
theorem topkPhase_state_eq (st : MCState) (dev : SearchDevice) (evs : List Event)
    (nv k : ℕ) : (searchTopkPhase st dev evs nv k).state = st := by
  unfold searchTopkPhase
  repeat' first
    | rfl
    | split

/-- `ip_search` assigns no attribute of `self`. -/
theorem search_state_eq (st : MCState) (dev : SearchDevice) (q db : NDArray)
    (k : ℕ) : (ip_search st dev q db k).state = st := by
  unfold ip_search
  repeat' first
    | rfl
    | exact topkPhase_state_eq st dev _ _ _
    | split

/-- Catalogue of the events one `process_batch` call can encode: everything
it appends is one of the two buffer creations, the three fixed encoder
bindings, an extra binding, or the single dispatch determined by
`gridFor`. -/
theorem mem_batch_events {st : MCState} {dev : DeviceRun} {pn : String}
    {input : NDArray} {sl : Option ℕ} {e : Event}
    (h : e ∈ (process_batch st dev pn input sl).events) :
    e = Event.newBufferBytes dev.inputBufId input.size input.nbytes ∨
    e = Event.newBufferLength dev.outputBufId input.nbytes ∨
    e = Event.setPipelineState pn ∨
    e = Event.setBuffer dev.inputBufId 0 0 ∨
    e = Event.setBuffer dev.outputBufId 0 1 ∨
    (∃ ex, extraBindings st pn (seqLenOf input sl) = some ex ∧ e ∈ ex) ∨
    (∃ pl grid tgroup, st.pipelines.lookup pn = some pl ∧
      gridFor pn pl (seqLenOf input sl) input.size = some (grid, tgroup) ∧
      e = Event.dispatch pn grid tgroup) := by
  unfold process_batch at h
  split at h
  · simp at h
  · rename_i pl hl
    dsimp only at h
    split at h
    · simp at h
    · split at h
      · simp only [List.mem_singleton] at h
        exact .inl h
      · split at h
        · simp only [List.mem_append, List.mem_singleton] at h
          rcases h with h | h
          · exact .inl h
          · exact .inr (.inl h)
        · split at h
          · rename_i hex
            simp only [List.mem_append, List.mem_cons, List.mem_singleton,
              List.not_mem_nil, or_false] at h
            tauto
          · rename_i ex hex
            split at h
            · rename_i hgrid
              simp only [List.mem_append, List.mem_cons, List.mem_singleton,
                List.not_mem_nil, or_false] at h
              rcases h with ((h | h) | h | h | h) | h
              · exact .inl h
              · exact .inr (.inl h)
              · exact .inr (.inr (.inl h))
              · exact .inr (.inr (.inr (.inl h)))
              · exact .inr (.inr (.inr (.inr (.inl h))))
              · exact .inr (.inr (.inr (.inr (.inr (.inl ⟨ex, hex, h⟩)))))
            · rename_i grid tgroup hgrid
              split at h
              · simp only [List.mem_append, List.mem_cons, List.mem_singleton,
                  List.not_mem_nil, or_false] at h
                rcases h with ((h | h) | h | h | h) | h
                · exact .inl h
                · exact .inr (.inl h)
                · exact .inr (.inr (.inl h))
                · exact .inr (.inr (.inr (.inl h)))
                · exact .inr (.inr (.inr (.inr (.inl h))))
                · exact .inr (.inr (.inr (.inr (.inr (.inl ⟨ex, hex, h⟩))))) 
              · have hfin : e ∈ ((([Event.newBufferBytes dev.inputBufId input.size input.nbytes] ++
                    [Event.newBufferLength dev.outputBufId input.nbytes]) ++
                    [Event.setPipelineState pn, Event.setBuffer dev.inputBufId 0 0,
                      Event.setBuffer dev.outputBufId 0 1] ++ ex) ++
                    [Event.dispatch pn grid tgroup]) := by
                  split at h
                  · exact h
                  · split at h
                    · exact h
                    · exact h
                simp only [List.mem_append, List.mem_cons, List.mem_singleton,
                  List.not_mem_nil, or_false] at hfin
                rcases hfin with (((h | h) | h | h | h) | h) | h
                · exact .inl h
                · exact .inr (.inl h)
                · exact .inr (.inr (.inl h))
                · exact .inr (.inr (.inr (.inl h)))
                · exact .inr (.inr (.inr (.inr (.inl h))))
                · exact .inr (.inr (.inr (.inr (.inr (.inl ⟨ex, hex, h⟩)))))
                · exact .inr (.inr (.inr (.inr (.inr (.inr
                    ⟨pl, grid, tgroup, hl, hgrid, h⟩)))))

/-- A dispatch encoded by `process_batch` carries the requested pipeline's
name and the `gridFor` sizing. -/
theorem dispatch_mem_batch {st : MCState} {dev : DeviceRun} {pn : String}
    {input : NDArray} {sl : Option ℕ} {q : String} {g t : ℕ × ℕ × ℕ}
    (h : Event.dispatch q g t ∈ (process_batch st dev pn input sl).events) :
    q = pn ∧ ∃ pl, st.pipelines.lookup pn = some pl ∧
      gridFor pn pl (seqLenOf input sl) input.size = some (g, t) := by
  rcases mem_batch_events h with h | h | h | h | h | ⟨ex, hex, hmem⟩ |
    ⟨pl, grid, tgroup, hl, hg, he⟩
  · exact absurd h (by simp)
  · exact absurd h (by simp)
  · exact absurd h (by simp)
  · exact absurd h (by simp)
  · exact absurd h (by simp)
  · exact absurd hmem (dispatch_not_mem_extra hex q g t)
  · obtain ⟨h1, h2, h3⟩ := Event.dispatch.inj he
    subst h1; subst h2; subst h3
    exact ⟨rfl, pl, hl, hg⟩

/-- Every scalar constant `process_batch` binds is the 4-byte
clamped-or-given `seq_length`. -/
theorem setBytes_mem_batch {st : MCState} {dev : DeviceRun} {pn : String}
    {input : NDArray} {sl : Option ℕ} {arg : KernelArg} {i : ℕ}
    (h : Event.setBytes arg i ∈ (process_batch st dev pn input sl).events) :
    arg = KernelArg.natLE (seqLenOf input sl) 4 := by
  rcases mem_batch_events h with h | h | h | h | h | ⟨ex, hex, hmem⟩ |
    ⟨pl, grid, tgroup, hl, hg, he⟩
  · exact absurd h (by simp)
  · exact absurd h (by simp)
  · exact absurd h (by simp)
  · exact absurd h (by simp)
  · exact absurd h (by simp)
  · exact setBytes_mem_extra hex hmem
  · exact absurd he (by simp)

/-- The events of `process_batch` are empty or begin with the creation of
the input buffer holding the whole input. -/
theorem batch_events_shape (st : MCState) (dev : DeviceRun) (pn : String)
    (input : NDArray) (sl : Option ℕ) :
    (process_batch st dev pn input sl).events = [] ∨
    ∃ rest, (process_batch st dev pn input sl).events =
      Event.newBufferBytes dev.inputBufId input.size input.nbytes :: rest := by
  unfold process_batch
  repeat' first
    | (left; rfl)
    | (right; exact ⟨_, rfl⟩)
    | split
    | dsimp only

/-- A successful `process_batch` returns an array of the input's shape and
dtype, and only after `gridFor` produced a dispatch sizing for a resolved
pipeline. -/
theorem batch_result_some {st : MCState} {dev : DeviceRun} {pn : String}
    {input : NDArray} {sl : Option ℕ} {out : NDArray}
    (h : (process_batch st dev pn input sl).result = some out) :
    out = ⟨input.shape, input.dtype⟩ ∧
    ∃ pl, st.pipelines.lookup pn = some pl ∧
      (gridFor pn pl (seqLenOf input sl) input.size).isSome := by
  unfold process_batch at h
  split at h
  · simp at h
  · rename_i pl hl
    dsimp only at h
    split at h
    · simp at h
    · split at h
      · simp at h
      · split at h
        · simp at h
        · split at h
          · simp at h
          · rename_i ex hex
            split at h
            · simp at h
            · rename_i grid tgroup hgrid
              split at h
              · simp at h
              · split at h
                · simp at h
                · split at h
                  · simp at h
                  · simp only [Option.some.injEq] at h
                    exact ⟨h.symm, pl, hl, by rw [hgrid]; rfl⟩

/-- A non-attention pipeline over an empty input hits the zero divisor. -/
theorem gridFor_zero {pn : String} (pl : PipelineState) (L : ℕ)
    (hpn : pn ≠ "attention") : gridFor pn pl L 0 = none := by
  unfold gridFor
  simp [hpn]

/-- The 1-D sizing of `gridFor`, unfolded. -/
theorem gridFor_of_ne {pn : String} {pl : PipelineState} {L n : ℕ}
    {g t : ℕ × ℕ × ℕ} (hpn : pn ≠ "attention")
    (h : gridFor pn pl L n = some (g, t)) :
    min pl.maxTotalThreads n ≠ 0 ∧
    g = ((n + min pl.maxTotalThreads n - 1) / min pl.maxTotalThreads n, 1, 1) ∧
    t = (min pl.maxTotalThreads n, 1, 1) := by
  unfold gridFor at h
  rw [if_neg hpn] at h
  dsimp only at h
  split at h
  · cases h
  · rename_i htpg
    obtain ⟨h1, h2⟩ := Prod.mk.inj (Option.some.inj h)
    exact ⟨htpg, h1.symm, h2.symm⟩

/-- The attention sizing of `gridFor`, unfolded. -/
theorem gridFor_attention {pl : PipelineState} {L n : ℕ} {g t : ℕ × ℕ × ℕ}
    (h : gridFor "attention" pl L n = some (g, t)) :
    g = (L, L, 1) ∧ t = (16, 16, 1) := by
  unfold gridFor at h
  rw [if_pos rfl] at h
  obtain ⟨h1, h2⟩ := Prod.mk.inj (Option.some.inj h)
  exact ⟨h1.symm, h2.symm⟩

/-- `process_sequence` when the embed stage fails. -/
theorem seq_eq_embed_none {st : MCState} {dev : SeqDevice} {input : NDArray}
    (h1 : (process_batch st dev.embedDev "embed" input none).result = none) :
    process_sequence st dev input =
      ⟨none, st, (process_batch st dev.embedDev "embed" input none).events⟩ := by
  unfold process_sequence
  dsimp only
  rw [h1]

/-- `process_sequence` when the attention stage fails. -/
theorem seq_eq_attention_none {st : MCState} {dev : SeqDevice} {input e : NDArray}
    (h1 : (process_batch st dev.embedDev "embed" input none).result = some e)
    (h2 : (process_batch st dev.attentionDev "attention" e none).result = none) :
    process_sequence st dev input =
      ⟨none, st, (process_batch st dev.embedDev "embed" input none).events ++
        (process_batch st dev.attentionDev "attention" e none).events⟩ := by
  unfold process_sequence
  dsimp only
  rw [h1]
  dsimp only
  rw [h2]

/-- `process_sequence` when the feed-forward stage fails. -/
theorem seq_eq_ffw_none {st : MCState} {dev : SeqDevice} {input e a : NDArray}
    (h1 : (process_batch st dev.embedDev "embed" input none).result = some e)
    (h2 : (process_batch st dev.attentionDev "attention" e none).result = some a)
    (h3 : (process_batch st dev.feedforwardDev "feedforward" a none).result = none) :
    process_sequence st dev input =
      ⟨none, st, (process_batch st dev.embedDev "embed" input none).events ++
        (process_batch st dev.attentionDev "attention" e none).events ++
        (process_batch st dev.feedforwardDev "feedforward" a none).events⟩ := by
  unfold process_sequence
  dsimp only
  rw [h1]
  dsimp only
  rw [h2]
  dsimp only
  rw [h3]

/-- `process_sequence` when the first three stages succeed. -/
theorem seq_eq_all_some {st : MCState} {dev : SeqDevice} {input e a f : NDArray}
    (h1 : (process_batch st dev.embedDev "embed" input none).result = some e)
    (h2 : (process_batch st dev.attentionDev "attention" e none).result = some a)
    (h3 : (process_batch st dev.feedforwardDev "feedforward" a none).result = some f) :
    process_sequence st dev input =
      ⟨(process_batch st dev.inferDev "infer" f none).result, st,
        (process_batch st dev.embedDev "embed" input none).events ++
        (process_batch st dev.attentionDev "attention" e none).events ++
        (process_batch st dev.feedforwardDev "feedforward" a none).events ++
        (process_batch st dev.inferDev "infer" f none).events⟩ := by
  unfold process_sequence
  dsimp only
  rw [h1]
  dsimp only
  rw [h2]
  dsimp only
  rw [h3]

/-- Exhaustive description of the event lists `quantize_embeddings` can
leave behind: the two allocations, then the five bindings (with the two
constants `st.scale` and `st.zero_point`, 4 bytes, at indices 2 and 3), then
at most the one 1-D dispatch. -/
theorem quantize_events_cases (st : MCState) (dev : DeviceRun) (emb : NDArray) :
    (quantize_embeddings st dev emb).events = [] ∨
    (quantize_embeddings st dev emb).events =
      [Event.newBufferBytes dev.inputBufId emb.size emb.nbytes] ∨
    (quantize_embeddings st dev emb).events =
      [Event.newBufferBytes dev.inputBufId emb.size emb.nbytes,
        Event.newBufferLength dev.outputBufId emb.size] ∨
    (∃ rest, (quantize_embeddings st dev emb).events =
      Event.newBufferBytes dev.inputBufId emb.size emb.nbytes ::
      Event.newBufferLength dev.outputBufId emb.size ::
      Event.setPipelineState "quantize_embeddings" ::
      Event.setBuffer dev.inputBufId 0 0 ::
      Event.setBuffer dev.outputBufId 0 1 ::
      Event.setBytes (KernelArg.float32 st.scale 4) 2 ::
      Event.setBytes (KernelArg.float32 st.zero_point 4) 3 :: rest ∧
      (rest = [] ∨ ∃ pl, st.pipelines.lookup "quantize_embeddings" = some pl ∧
        min pl.maxTotalThreads emb.size ≠ 0 ∧
        rest = [Event.dispatch "quantize_embeddings"
          ((emb.size + min pl.maxTotalThreads emb.size - 1) /
            min pl.maxTotalThreads emb.size, 1, 1)
          (min pl.maxTotalThreads emb.size, 1, 1)])) := by
  unfold quantize_embeddings
  split
  · exact .inl rfl
  · dsimp only
    split
    · exact .inr (.inl rfl)
    · split
      · exact .inr (.inr (.inl rfl))
      · split
        · exact .inr (.inr (.inl rfl))
        · rename_i pl hl
          split
          · exact .inr (.inr (.inr ⟨[], rfl, .inl rfl⟩))
          · rename_i htpg
            split
            · exact .inr (.inr (.inr ⟨[], rfl, .inl rfl⟩))
            · split
              · exact .inr (.inr (.inr ⟨_, rfl, .inr ⟨pl, hl, htpg, rfl⟩⟩))
              · split
                · exact .inr (.inr (.inr ⟨_, rfl, .inr ⟨pl, hl, htpg, rfl⟩⟩))
                · exact .inr (.inr (.inr ⟨_, rfl, .inr ⟨pl, hl, htpg, rfl⟩⟩))

/-- A `quantize_embeddings` result is `none` or the uint8 reshape of the
input. -/
theorem quantize_result_cases (st : MCState) (dev : DeviceRun) (emb : NDArray) :
    (quantize_embeddings st dev emb).result = none ∨
    (quantize_embeddings st dev emb).result = some ⟨emb.shape, DType.uint8⟩ := by
  unfold quantize_embeddings
  repeat' first
    | (left; rfl)
    | (right; rfl)
    | split
    | dsimp only

/-- The top-k phase only adds the `searchTopkEvents`. -/
theorem topkPhase_events_cases (st : MCState) (dev : SearchDevice)
    (evs : List Event) (nv k : ℕ) :
    (searchTopkPhase st dev evs nv k).events = evs ∨
    (searchTopkPhase st dev evs nv k).events = evs ++ searchTopkEvents dev nv k := by
  unfold searchTopkPhase
  repeat' first
    | (left; rfl)
    | (right; rfl)
    | split

/-- A top-k phase result is `none` or the two `k`-entry readback slices. -/
theorem topkPhase_result_cases (st : MCState) (dev : SearchDevice)
    (evs : List Event) (nv k : ℕ) :
    (searchTopkPhase st dev evs nv k).result = none ∨
    (searchTopkPhase st dev evs nv k).result =
      some (((List.range k).map dev.idxData).take k,
        ((List.range k).map dev.scoreData).take k) := by
  unfold searchTopkPhase
  repeat' first
    | (left; rfl)
    | (right; rfl)
    | split

/-- An `ip_search` result is `none` or the two `k`-entry readback slices. -/
theorem search_result_cases (st : MCState) (dev : SearchDevice)
    (qv db : NDArray) (k : ℕ) :
    (ip_search st dev qv db k).result = none ∨
    (ip_search st dev qv db k).result =
      some (((List.range k).map dev.idxData).take k,
        ((List.range k).map dev.scoreData).take k) := by
  unfold ip_search
  repeat' first
    | (left; rfl)
    | exact topkPhase_result_cases st dev _ _ k
    | split

/-- The only dispatch `quantize_embeddings` can encode: the 1-D tiling over
`embeddings.size` for the resolved quantize pipeline. -/
theorem dispatch_mem_quantize {st : MCState} {dev : DeviceRun} {emb : NDArray}
    {q : String} {g t : ℕ × ℕ × ℕ}
    (h : Event.dispatch q g t ∈ (quantize_embeddings st dev emb).events) :
    q = "quantize_embeddings" ∧
    ∃ pl, st.pipelines.lookup "quantize_embeddings" = some pl ∧
      min pl.maxTotalThreads emb.size ≠ 0 ∧
      g = ((emb.size + min pl.maxTotalThreads emb.size - 1) /
        min pl.maxTotalThreads emb.size, 1, 1) ∧
      t = (min pl.maxTotalThreads emb.size, 1, 1) := by
  rcases quantize_events_cases st dev emb with hc | hc | hc | ⟨rest, hc, hrest⟩
  · rw [hc] at h; simp at h
  · rw [hc] at h; simp at h
  · rw [hc] at h; simp at h
  · rw [hc] at h
    simp only [List.mem_cons] at h
    rcases h with h | h | h | h | h | h | h | h
    · exact absurd h (by simp)
    · exact absurd h (by simp)
    · exact absurd h (by simp)
    · exact absurd h (by simp)
    · exact absurd h (by simp)
    · exact absurd h (by simp)
    · exact absurd h (by simp)
    · rcases hrest with hrest | ⟨pl, hl, htpg, hrest⟩
      · rw [hrest] at h; simp at h
      · rw [hrest] at h
        simp only [List.mem_singleton] at h
        obtain ⟨h1, h2, h3⟩ := Event.dispatch.inj h
        subst h1; subst h2; subst h3
        exact ⟨rfl, pl, hl, htpg, rfl, rfl⟩

/-- No dispatch among the allocation events of `ip_search`. -/
theorem dispatch_not_mem_alloc (dev : SearchDevice) (qv db : NDArray)
    (nv k : ℕ) (q : String) (g t : ℕ × ℕ × ℕ) (n : ℕ) :
    Event.dispatch q g t ∉ (searchAllocEvents dev qv db nv k).take n := by
  have : (searchAllocEvents dev qv db nv k).take n ⊆ searchAllocEvents dev qv db nv k :=
    List.take_subset n _
  intro hmem
  have := this hmem
  simp [searchAllocEvents] at this

/-- The dispatches among the score-phase events. -/
theorem dispatch_mem_score {dev : SearchDevice} {pl1 : PipelineState}
    {nv vd : ℕ} {q : String} {g t : ℕ × ℕ × ℕ}
    (h : Event.dispatch q g t ∈ searchScoreEvents dev pl1 nv vd) :
    q = "ip_search" ∧
    g = ((nv + min pl1.maxTotalThreads nv - 1) / min pl1.maxTotalThreads nv, 1, 1) ∧
    t = (min pl1.maxTotalThreads nv, 1, 1) := by
  simp only [searchScoreEvents, List.mem_cons, List.not_mem_nil, or_false] at h
  rcases h with h | h | h | h | h | h | h
  · exact absurd h (by simp)
  · exact absurd h (by simp)
  · exact absurd h (by simp)
  · exact absurd h (by simp)
  · exact absurd h (by simp)
  · exact absurd h (by simp)
  · obtain ⟨h1, h2, h3⟩ := Event.dispatch.inj h
    exact ⟨h1, h2, h3⟩

/-- No dispatch among the first six score-phase events (the bindings). -/
theorem dispatch_not_mem_score_take6 (dev : SearchDevice) (pl1 : PipelineState)
    (nv vd : ℕ) (q : String) (g t : ℕ × ℕ × ℕ) :
    Event.dispatch q g t ∉ (searchScoreEvents dev pl1 nv vd).take 6 := by
  simp [searchScoreEvents]

/-- The dispatch among the top-k events. -/
theorem dispatch_mem_topkEvents {dev : SearchDevice} {nv k : ℕ}
    {q : String} {g t : ℕ × ℕ × ℕ}
    (h : Event.dispatch q g t ∈ searchTopkEvents dev nv k) :
    q = "topk_reduce" ∧ g = (1, 1, 1) ∧ t = (min nv 256, 1, 1) := by
  simp only [searchTopkEvents, List.mem_cons, List.not_mem_nil, or_false] at h
  rcases h with h | h | h | h | h | h | h
  · exact absurd h (by simp)
  · exact absurd h (by simp)
  · exact absurd h (by simp)
  · exact absurd h (by simp)
  · exact absurd h (by simp)
  · exact absurd h (by simp)
  · obtain ⟨h1, h2, h3⟩ := Event.dispatch.inj h
    exact ⟨h1, h2, h3⟩

/-- Every dispatch `ip_search` encodes is either the score phase (1-D tiling
over the row count for the resolved `ip_search` pipeline) or the single-group
top-k reduction. -/
theorem dispatch_mem_search {st : MCState} {dev : SearchDevice}
    {qv db : NDArray} {k : ℕ} {q : String} {g t : ℕ × ℕ × ℕ}
    (h : Event.dispatch q g t ∈ (ip_search st dev qv db k).events) :
    (q = "ip_search" ∧ ∃ pl, st.pipelines.lookup "ip_search" = some pl ∧
      min pl.maxTotalThreads db.len ≠ 0 ∧
      g = ((db.len + min pl.maxTotalThreads db.len - 1) /
        min pl.maxTotalThreads db.len, 1, 1) ∧
      t = (min pl.maxTotalThreads db.len, 1, 1)) ∨
    (q = "topk_reduce" ∧ g = (1, 1, 1) ∧ t = (min db.len 256, 1, 1)) := by
  unfold ip_search at h
  split at h
  · simp at h
  · simp at h
  · rename_i nv vd tl hshape
    have hlen : db.len = nv := by simp [NDArray.len, hshape]
    rw [hlen]
    split at h
    · simp at h
    · split at h
      · exact absurd h (dispatch_not_mem_alloc dev qv db nv k q g t 1)
      · split at h
        · exact absurd h (dispatch_not_mem_alloc dev qv db nv k q g t 2)
        · split at h
          · exact absurd h (dispatch_not_mem_alloc dev qv db nv k q g t 3)
          · split at h
            · exact absurd h (dispatch_not_mem_alloc dev qv db nv k q g t 4)
            · split at h
              · simp [searchAllocEvents] at h
              · split at h
                · simp [searchAllocEvents] at h
                · rename_i pl1 hl
                  split at h
                  · simp only [List.mem_append] at h
                    rcases h with h | h
                    · simp [searchAllocEvents] at h
                    · exact absurd h (dispatch_not_mem_score_take6 dev pl1 nv vd q g t)
                  · rename_i htpg
                    split at h
                    · simp only [List.mem_append] at h
                      rcases h with h | h
                      · simp [searchAllocEvents] at h
                      · obtain ⟨h1, h2, h3⟩ := dispatch_mem_score h
                        exact .inl ⟨h1, pl1, hl, htpg, h2, h3⟩
                    · rcases topkPhase_events_cases st dev
                        (searchAllocEvents dev qv db nv k ++
                          searchScoreEvents dev pl1 nv vd) nv k with hc | hc
                      · rw [hc] at h
                        simp only [List.mem_append] at h
                        rcases h with h | h
                        · simp [searchAllocEvents] at h
                        · obtain ⟨h1, h2, h3⟩ := dispatch_mem_score h
                          exact .inl ⟨h1, pl1, hl, htpg, h2, h3⟩
                      · rw [hc] at h
                        simp only [List.mem_append] at h
                        rcases h with (h | h) | h
                        · simp [searchAllocEvents] at h
                        · obtain ⟨h1, h2, h3⟩ := dispatch_mem_score h
                          exact .inl ⟨h1, pl1, hl, htpg, h2, h3⟩
                        · exact .inr (dispatch_mem_topkEvents h)

/-- `ip_search` always returns `k` indices and `k` scores when it returns at
all. -/
theorem search_result_lengths {st : MCState} {dev : SearchDevice}
    {qv db : NDArray} {k : ℕ} {idx : List ℕ} {sc : List ℚ}
    (h : (ip_search st dev qv db k).result = some (idx, sc)) :
    idx.length = k ∧ sc.length = k := by
  rcases search_result_cases st dev qv db k with hc | hc
  · rw [hc] at h; cases h
  · rw [hc] at h
    obtain ⟨h1, h2⟩ := Prod.mk.inj (Option.some.inj h)
    constructor
    · rw [← h1]; simp
    · rw [← h2]; simp

/-- One entry point of the `initialize` loop succeeds: the function resolves
and its pipeline object gets built. -/
def entryOk (dev : InitDevice) (n : String) : Bool :=
  dev.getFn n && (dev.mkPipeline n).isSome

/-- Storing the pipelines of a list of entry points, in order. -/
def addAll (dev : InitDevice) (names : List String) (st : MCState) : MCState :=
  names.foldl (fun s n =>
    match dev.mkPipeline n with
    | some p => { s with pipelines := dictSet s.pipelines n p }
    | none => s) st

/-- The `initialize` loop succeeds iff every entry point succeeds, and it
stores exactly the pipelines of the longest successful prefix. -/
theorem addPipelines_eq (dev : InitDevice) :
    ∀ (l : List String) (st : MCState),
      addPipelines dev l st =
        (l.all (entryOk dev), addAll dev (l.takeWhile (entryOk dev)) st) := by
  intro l
  induction l with
  | nil => intro st; rfl
  | cons n rest ih =>
    intro st
    by_cases hg : dev.getFn n = false
    · have hek : entryOk dev n = false := by simp [entryOk, hg]
      simp only [addPipelines, hg, if_true]
      simp [List.all_cons, hek, List.takeWhile_cons, addAll]
    · have hg' : dev.getFn n = true := by revert hg; cases dev.getFn n <;> simp
      cases hp : dev.mkPipeline n with
      | none =>
        have hek : entryOk dev n = false := by simp [entryOk, hp]
        simp only [addPipelines, hg, if_false, hp]
        simp [List.all_cons, hek, List.takeWhile_cons, addAll]
      | some p =>
        have hek : entryOk dev n = true := by simp [entryOk, hg', hp]
        simp only [addPipelines, hg, if_false, hp]
        rw [ih]
        simp [List.all_cons, hek, List.takeWhile_cons, addAll, hp]

/-- The `initialize` loop touches only the pipeline dictionary. -/
theorem addAll_frame (dev : InitDevice) :
    ∀ (l : List String) (st : MCState),
      (addAll dev l st).shared_buffers = st.shared_buffers ∧
      (addAll dev l st).scale = st.scale ∧
      (addAll dev l st).zero_point = st.zero_point := by
  intro l
  induction l with
  | nil => intro st; exact ⟨rfl, rfl, rfl⟩
  | cons n rest ih =>
    intro st
    show (addAll dev rest _).shared_buffers = _ ∧ _ ∧ _
    cases hp : dev.mkPipeline n with
    | none => simpa [addAll, hp] using ih st
    | some p =>
      have := ih { st with pipelines := dictSet st.pipelines n p }
      simpa [addAll, hp] using this

/-- Full characterization of `MetalCompute.initialize`: `False` exactly when
compilation fails or an entry point fails, the state untouched on
compilation failure, the pipelines of the successful prefix retained on an
entry-point failure, and the shared buffers built only on full success. -/
theorem initialize_characterization (st : MCState) (dev : InitDevice) :
    initializeCompute st dev =
      if dev.loadOk = false then (false, st)
      else if pipeline_functions.all (entryOk dev) then
        (true, initialize_shared_buffers (addAll dev pipeline_functions st) dev)
      else (false, addAll dev (pipeline_functions.takeWhile (entryOk dev)) st) := by
  unfold initializeCompute
  by_cases hload : dev.loadOk = false
  · rw [if_pos hload, if_pos hload]
  · rw [if_neg hload, if_neg hload]
    rw [addPipelines_eq]
    by_cases hall : pipeline_functions.all (entryOk dev)
    · rw [if_pos hall, hall]
      have : pipeline_functions.takeWhile (entryOk dev) = pipeline_functions :=
        List.takeWhile_eq_self_iff.mpr (by simpa [List.all_eq_true] using hall)
      rw [this]
    · rw [if_neg hall]
      have : pipeline_functions.all (entryOk dev) = false := by
        revert hall; cases pipeline_functions.all (entryOk dev) <;> simp
      rw [this]

/-! ### Concrete fixtures -/

/-- A request-device oracle whose every call succeeds. -/
def devOK : DeviceRun :=
  { inputBufId := 100, outputBufId := 101, inputBufOk := true, outputBufOk := true,
    encoderOk := true, dispatchOk := true, commitOk := true, readOk := true }

/-- An init-device oracle: compilation succeeds, every entry point resolves
to a pipeline with 1024 max threads per threadgroup. -/
def devInitOK : InitDevice :=
  { loadOk := true, getFn := fun _ => true, mkPipeline := fun _ => some ⟨1024⟩,
    bufId := fun n => if n == "position_encodings" then 0
      else if n == "layer_norm_weights" then 1 else 2 }

/-- The instance state a fully successful `initialize` run leaves behind. -/
def stOK : MCState :=
  { pipelines := [("embed", ⟨1024⟩), ("attention", ⟨1024⟩), ("feedforward", ⟨1024⟩),
      ("infer", ⟨1024⟩), ("quantize_embeddings", ⟨1024⟩), ("ip_search", ⟨1024⟩),
      ("topk_reduce", ⟨1024⟩)],
    shared_buffers := [("position_encodings", ⟨0, MAX_SEQ_LENGTH * EMBEDDING_DIM * 4⟩),
      ("layer_norm_weights", ⟨1, 16⟩), ("layer_norm_bias", ⟨2, 16⟩)],
    scale := 1 / 10, zero_point := 128 }

example : initializeCompute mkMetalCompute devInitOK = (true, stOK) := rfl

/-- All four stages with an all-succeeding device. -/
def devSeqOK : SeqDevice := ⟨devOK, devOK, devOK, devOK⟩

/-- An all-succeeding search-device oracle whose readbacks are zero. -/
def devSearchOK : SearchDevice :=
  { queryBufId := 200, databaseBufId := 201, scoresBufId := 202, indicesBufId := 203,
    topScoresBufId := 204, queryBufOk := true, databaseBufOk := true, scoresBufOk := true,
    indicesBufOk := true, topScoresBufOk := true, encoder1Ok := true, encoder2Ok := true,
    commitOk := true, readOk := true, idxData := fun _ => 0, scoreData := fun _ => 0 }

/-- An init-device oracle on which only the `embed` entry point resolves. -/
def devC2 : InitDevice :=
  { loadOk := true, getFn := fun n => n == "embed", mkPipeline := fun _ => some ⟨1024⟩,
    bufId := fun _ => 0 }

/-! ### The claims -/

/-- C1, counterexample: a 513-token float32 sequence through the `embed`
stage is not truncated — all 513 elements (2052 bytes) are bound into the
input buffer and the 1-D dispatch grid (1 threadgroup of 513 threads)
covers 513 > MAX_SEQ_LENGTH threads, so the excess token is bound and
dispatched. -/
theorem truncation_cex :
    MAX_SEQ_LENGTH < (NDArray.mk [513] DType.float32).len ∧
    Event.newBufferBytes 100 513 2052 ∈
      (process_batch stOK devOK "embed" (NDArray.mk [513] DType.float32) none).events ∧
    (513 : ℕ) ≠ MAX_SEQ_LENGTH ∧
    Event.dispatch "embed" (1, 1, 1) (513, 1, 1) ∈
      (process_batch stOK devOK "embed" (NDArray.mk [513] DType.float32) none).events ∧
    MAX_SEQ_LENGTH < 1 * 513 := by decide

/-- C1, amended: `process_batch` does not truncate: whenever it creates
buffers at all, the input buffer holds the whole input (`input.size`
elements, `input.nbytes` bytes); the only scalar constant it binds is the
clamped `seq_length` (`min(len, MAX_SEQ_LENGTH)` for the default `None`
argument); every non-attention dispatch grid covers at least `input.size`
threads — the excess tokens are dispatched — and only the attention grid is
sized by the clamped `seq_length`. -/
theorem no_truncation_full_input :
    (∀ st dev pn input sl, (process_batch st dev pn input sl).events ≠ [] →
      Event.newBufferBytes dev.inputBufId input.size input.nbytes ∈
        (process_batch st dev pn input sl).events) ∧
    (∀ st dev pn input sl arg i,
      Event.setBytes arg i ∈ (process_batch st dev pn input sl).events →
      arg = KernelArg.natLE (seqLenOf input sl) 4) ∧
    (∀ st dev pn input sl q g t, pn ≠ "attention" →
      Event.dispatch q g t ∈ (process_batch st dev pn input sl).events →
      input.size ≤ g.1 * t.1) ∧
    (∀ st dev input q g t,
      Event.dispatch q g t ∈ (process_batch st dev "attention" input none).events →
      g = (min input.len MAX_SEQ_LENGTH, min input.len MAX_SEQ_LENGTH, 1) ∧
      t = (16, 16, 1)) := by
  refine ⟨?_, ?_, ?_, ?_⟩
  · intro st dev pn input sl h
    rcases batch_events_shape st dev pn input sl with hc | ⟨rest, hc⟩
    · exact absurd hc h
    · rw [hc]
      exact List.mem_cons_self _ _
  · intro st dev pn input sl arg i h
    exact setBytes_mem_batch h
  · intro st dev pn input sl q g t hpn h
    obtain ⟨hq, pl, hl, hg⟩ := dispatch_mem_batch h
    obtain ⟨htpg, hgeq, hteq⟩ := gridFor_of_ne hpn hg
    rw [hgeq, hteq]
    exact ceil_mul_ge input.size _ (Nat.pos_of_ne_zero htpg)
  · intro st dev input q g t h
    obtain ⟨hq, pl, hl, hg⟩ := dispatch_mem_batch h
    obtain ⟨hgeq, hteq⟩ := gridFor_attention hg
    exact ⟨by rw [hgeq]; rfl, hteq⟩

/-- C2, counterexample: with compilation succeeding, `embed` resolving and
`attention` missing, `initialize` returns `False` yet retains the `embed`
pipeline in the pipeline dictionary — partial pipeline state survives the
failed call. -/
theorem initialize_not_atomic_cex :
    (initializeCompute mkMetalCompute devC2).1 = false ∧
    (initializeCompute mkMetalCompute devC2).2.pipelines =
      [("embed", PipelineState.mk 1024)] ∧
    [("embed", PipelineState.mk 1024)] ≠ ([] : List (String × PipelineState)) := by
  decide

/-- C2, amended: `initialize` returns `False` exactly when compilation fails
or some required entry point fails; the state is untouched on a compilation
failure, but on an entry-point failure the pipelines created for the
successful prefix of the entry-point list are retained — the pipeline map is
not rolled back. -/
theorem initialize_false_keeps_built :
    (∀ st dev, (initializeCompute st dev).1 = false ↔
      (dev.loadOk = false ∨ pipeline_functions.all (entryOk dev) = false)) ∧
    (∀ st dev, dev.loadOk = false → (initializeCompute st dev).2 = st) ∧
    (∀ st dev, dev.loadOk = true → pipeline_functions.all (entryOk dev) = false →
      (initializeCompute st dev).2 =
        addAll dev (pipeline_functions.takeWhile (entryOk dev)) st) := by
  refine ⟨?_, ?_, ?_⟩
  · intro st dev
    rw [initialize_characterization]
    by_cases hload : dev.loadOk = false
    · simp [hload]
    · rw [if_neg hload]
      by_cases hall : pipeline_functions.all (entryOk dev)
      · simp [hall, hload]
      · have : pipeline_functions.all (entryOk dev) = false := by
          revert hall; cases pipeline_functions.all (entryOk dev) <;> simp
        simp [this, hload]
  · intro st dev hload
    rw [initialize_characterization, if_pos hload]
  · intro st dev hload hall
    rw [initialize_characterization, if_neg (by simp [hload]), hall]
    rfl

/-- C3: a failing stage aborts the whole of `process_sequence`: if the
embed stage returns no result, nothing further is dispatched; if attention
fails after a successful embed, neither "feedforward" nor "infer" is ever
dispatched; if feed-forward fails, "infer" is never dispatched; and whenever
any stage — the final one included — returns no result, `process_sequence`
returns `None`, never a partial result. -/
theorem stage_failure_aborts :
    ∀ st dev input,
      ((process_batch st dev.embedDev "embed" input none).result = none →
        (process_sequence st dev input).result = none ∧
        ∀ q g t, Event.dispatch q g t ∈ (process_sequence st dev input).events →
          q = "embed") ∧
      (∀ e, (process_batch st dev.embedDev "embed" input none).result = some e →
        (process_batch st dev.attentionDev "attention" e none).result = none →
        (process_sequence st dev input).result = none ∧
        ∀ q g t, Event.dispatch q g t ∈ (process_sequence st dev input).events →
          q = "embed" ∨ q = "attention") ∧
      (∀ e a, (process_batch st dev.embedDev "embed" input none).result = some e →
        (process_batch st dev.attentionDev "attention" e none).result = some a →
        (process_batch st dev.feedforwardDev "feedforward" a none).result = none →
        (process_sequence st dev input).result = none ∧
        ∀ q g t, Event.dispatch q g t ∈ (process_sequence st dev input).events →
          q = "embed" ∨ q = "attention" ∨ q = "feedforward") ∧
      (∀ e a f, (process_batch st dev.embedDev "embed" input none).result = some e →
        (process_batch st dev.attentionDev "attention" e none).result = some a →
        (process_batch st dev.feedforwardDev "feedforward" a none).result = some f →
        (process_batch st dev.inferDev "infer" f none).result = none →
        (process_sequence st dev input).result = none) := by
  intro st dev input
  refine ⟨?_, ?_, ?_, ?_⟩
  · intro h1
    have heq := seq_eq_embed_none h1
    refine ⟨by rw [heq], ?_⟩
    intro q g t hm
    rw [heq] at hm
    exact (dispatch_mem_batch hm).1
  · intro e h1 h2
    have heq := seq_eq_attention_none h1 h2
    refine ⟨by rw [heq], ?_⟩
    intro q g t hm
    rw [heq] at hm
    dsimp only at hm
    rcases List.mem_append.mp hm with hm | hm
    · exact .inl (dispatch_mem_batch hm).1
    · exact .inr (dispatch_mem_batch hm).1
  · intro e a h1 h2 h3
    have heq := seq_eq_ffw_none h1 h2 h3
    refine ⟨by rw [heq], ?_⟩
    intro q g t hm
    rw [heq] at hm
    dsimp only at hm
    rcases List.mem_append.mp hm with hm | hm
    · rcases List.mem_append.mp hm with hm | hm
      · exact .inl (dispatch_mem_batch hm).1
      · exact .inr (.inl (dispatch_mem_batch hm).1)
    · exact .inr (.inr (dispatch_mem_batch hm).1)
  · intro e a f h1 h2 h3 h4
    have heq := seq_eq_all_some h1 h2 h3
    rw [heq]
    exact h4

/-- A device on which the attention stage's input-buffer creation raises. -/
def devSeqAttnFail : SeqDevice :=
  ⟨devOK, { devOK with inputBufOk := false }, devOK, devOK⟩

example :
    (process_batch stOK devSeqAttnFail.embedDev "embed"
      (NDArray.mk [4] DType.float32) none).result = some (NDArray.mk [4] DType.float32) ∧
    (process_batch stOK devSeqAttnFail.attentionDev "attention"
      (NDArray.mk [4] DType.float32) none).result = none ∧
    (process_sequence stOK devSeqAttnFail (NDArray.mk [4] DType.float32)).result = none := by
  refine ⟨rfl, rfl, rfl⟩

/-- C4: the positional-encoding table, of type
`Fin MAX_SEQ_LENGTH → Fin EMBEDDING_DIM → ℝ` (one real per cell of the
512 × 256 table), matches the closed form: for every position `p` the entry
at even column `2i` is `sin(p / 10000 ^ (2i / D))` and the entry at odd
column `2i + 1` is `cos(p / 10000 ^ (2i / D))`, with
`D = EMBEDDING_DIM = 256`. -/
theorem position_encodings_closed_form (p : Fin MAX_SEQ_LENGTH) (i : ℕ)
    (h0 : 2 * i < EMBEDDING_DIM) (h1 : 2 * i + 1 < EMBEDDING_DIM) :
    MAX_SEQ_LENGTH = 512 ∧ EMBEDDING_DIM = 256 ∧
    position_encodings p ⟨2 * i, h0⟩ =
      Real.sin ((p.val : ℝ) /
        (10000 : ℝ) ^ (((2 * i : ℕ) : ℝ) / (EMBEDDING_DIM : ℝ))) ∧
    position_encodings p ⟨2 * i + 1, h1⟩ =
      Real.cos ((p.val : ℝ) /
        (10000 : ℝ) ^ (((2 * i : ℕ) : ℝ) / (EMBEDDING_DIM : ℝ))) := by
  refine ⟨rfl, rfl, ?_, ?_⟩
  · unfold position_encodings
    rw [if_pos (Nat.mul_mod_right 2 i)]
  · unfold position_encodings
    rw [if_neg (by omega : ¬ (2 * i + 1) % 2 = 0)]
    rw [(by omega : (2 * i + 1 - 1 : ℕ) = 2 * i)]

/-- C4 witness: position 3, columns 10 and 11. -/
theorem position_encodings_closed_form_witness :
    MAX_SEQ_LENGTH = 512 ∧ EMBEDDING_DIM = 256 ∧
    position_encodings (⟨3, by decide⟩ : Fin MAX_SEQ_LENGTH) ⟨2 * 5, by decide⟩ =
      Real.sin (((⟨3, by decide⟩ : Fin MAX_SEQ_LENGTH).val : ℝ) /
        (10000 : ℝ) ^ (((2 * 5 : ℕ) : ℝ) / (EMBEDDING_DIM : ℝ))) ∧
    position_encodings (⟨3, by decide⟩ : Fin MAX_SEQ_LENGTH) ⟨2 * 5 + 1, by decide⟩ =
      Real.cos (((⟨3, by decide⟩ : Fin MAX_SEQ_LENGTH).val : ℝ) /
        (10000 : ℝ) ^ (((2 * 5 : ℕ) : ℝ) / (EMBEDDING_DIM : ℝ))) :=
  position_encodings_closed_form (⟨3, by decide⟩ : Fin MAX_SEQ_LENGTH) 5 (by decide) (by decide)

/-- C5, counterexample: searching a one-row database with `k = 2` returns
two (index, score) pairs — more than the database holds; the call neither
clamps to `N` nor fails. -/
theorem topk_exceeds_database_cex :
    (ip_search stOK devSearchOK (NDArray.mk [1] DType.uint8)
      (NDArray.mk [1, 1] DType.uint8) 2).result = some ([0, 0], [0, 0]) ∧
    (NDArray.mk [1, 1] DType.uint8).len = 1 ∧ ¬ ((2 : ℕ) ≤ 1) := by
  refine ⟨rfl, rfl, by decide⟩

/-- C5, amended: whenever `ip_search` returns a result at all it returns
exactly `k` indices and `k` scores — the `indices` and `top_scores` buffers
are allocated with `k` four-byte entries regardless of the database size, so
for `k > N` the result exceeds the database size. -/
theorem search_returns_k_pairs (st : MCState) (dev : SearchDevice)
    (qv db : NDArray) (k : ℕ) (idx : List ℕ) (sc : List ℚ)
    (h : (ip_search st dev qv db k).result = some (idx, sc)) :
    idx.length = k ∧ sc.length = k :=
  search_result_lengths h

/-- C5 witness: the counterexample's call, two pairs from one row. -/
theorem search_returns_k_pairs_witness :
    ([0, 0] : List ℕ).length = 2 ∧ ([0, 0] : List ℚ).length = 2 :=
  search_returns_k_pairs stOK devSearchOK ⟨[1], DType.uint8⟩ ⟨[1, 1], DType.uint8⟩
    2 [0, 0] [0, 0] rfl

/-- C6: every dispatch conforms to the stated sizing: the attention stage
gets a 2-D `seq_length × seq_length` grid with the fixed 16×16 thread-group;
every other `process_batch` dispatch, the quantize dispatch and the score
phase of `ip_search` get a 1-D grid whose thread-group size is
`min(kernel max threads per group, element count)` and whose group count is
the ceiling of element count over thread-group size. -/
theorem dispatch_sizing_conforms :
    (∀ st dev pn input sl q g t,
      Event.dispatch q g t ∈ (process_batch st dev pn input sl).events →
      (pn = "attention" →
        g = (seqLenOf input sl, seqLenOf input sl, 1) ∧ t = (16, 16, 1)) ∧
      (pn ≠ "attention" → ∃ pl, st.pipelines.lookup pn = some pl ∧
        0 < min pl.maxTotalThreads input.size ∧
        t = (min pl.maxTotalThreads input.size, 1, 1) ∧
        (g.1 : ℤ) = ⌈(input.size : ℚ) / ((min pl.maxTotalThreads input.size : ℕ) : ℚ)⌉ ∧
        g.2 = (1, 1))) ∧
    (∀ st dev emb q g t,
      Event.dispatch q g t ∈ (quantize_embeddings st dev emb).events →
      ∃ pl, st.pipelines.lookup "quantize_embeddings" = some pl ∧
        0 < min pl.maxTotalThreads emb.size ∧
        t = (min pl.maxTotalThreads emb.size, 1, 1) ∧
        (g.1 : ℤ) = ⌈(emb.size : ℚ) / ((min pl.maxTotalThreads emb.size : ℕ) : ℚ)⌉ ∧
        g.2 = (1, 1)) ∧
    (∀ st dev qv db k g t,
      Event.dispatch "ip_search" g t ∈ (ip_search st dev qv db k).events →
      ∃ pl, st.pipelines.lookup "ip_search" = some pl ∧
        0 < min pl.maxTotalThreads db.len ∧
        t = (min pl.maxTotalThreads db.len, 1, 1) ∧
        (g.1 : ℤ) = ⌈(db.len : ℚ) / ((min pl.maxTotalThreads db.len : ℕ) : ℚ)⌉ ∧
        g.2 = (1, 1)) := by
  refine ⟨?_, ?_, ?_⟩
  · intro st dev pn input sl q g t h
    obtain ⟨hq, pl, hl, hg⟩ := dispatch_mem_batch h
    constructor
    · intro hpn
      subst hpn
      exact gridFor_attention hg
    · intro hpn
      obtain ⟨htpg, hgeq, hteq⟩ := gridFor_of_ne hpn hg
      refine ⟨pl, hl, Nat.pos_of_ne_zero htpg, hteq, ?_, by rw [hgeq]⟩
      rw [hgeq]
      exact nat_ceil_div input.size _ (Nat.pos_of_ne_zero htpg)
  · intro st dev emb q g t h
    obtain ⟨hq, pl, hl, htpg, hgeq, hteq⟩ := dispatch_mem_quantize h
    refine ⟨pl, hl, Nat.pos_of_ne_zero htpg, hteq, ?_, by rw [hgeq]⟩
    rw [hgeq]
    exact nat_ceil_div emb.size _ (Nat.pos_of_ne_zero htpg)
  · intro st dev qv db k g t h
    rcases dispatch_mem_search h with ⟨hq, pl, hl, htpg, hgeq, hteq⟩ | ⟨hq, h2, h3⟩
    · refine ⟨pl, hl, Nat.pos_of_ne_zero htpg, hteq, ?_, by rw [hgeq]⟩
      rw [hgeq]
      exact nat_ceil_div db.len _ (Nat.pos_of_ne_zero htpg)
    · exact absurd hq (by decide)

example :
    Event.dispatch "quantize_embeddings" (1, 1, 1) (4, 1, 1) ∈
      (quantize_embeddings stOK devOK (NDArray.mk [4] DType.float32)).events := by
  decide

example :
    Event.dispatch "attention" (4, 4, 1) (16, 16, 1) ∈
      (process_batch stOK devOK "attention" (NDArray.mk [4] DType.float32) none).events := by
  decide

/-- C7: `quantize_embeddings` either fails with `None` — never a partial
result — or returns a uint8 array of exactly the input's shape. -/
theorem quantize_uint8_or_none :
    ∀ st dev emb, (quantize_embeddings st dev emb).result = none ∨
      ∃ out, (quantize_embeddings st dev emb).result = some out ∧
        out.shape = emb.shape ∧ out.dtype = DType.uint8 := by
  intro st dev emb
  rcases quantize_result_cases st dev emb with hc | hc
  · exact .inl hc
  · exact .inr ⟨_, hc, rfl, rfl⟩

/-- C8: a fully successful `initialize` on a fresh instance builds exactly
the three shared buffers — the 512×256 float32 positional-encoding table and
the two 16-byte layer-norm buffers — and every request method, succeeding or
failing, returns the instance state (hence the shared-buffer pool and its
entries) unchanged. -/
theorem shared_buffers_built_once_immutable :
    (∀ dev, (initializeCompute mkMetalCompute dev).1 = true →
      (initializeCompute mkMetalCompute dev).2.shared_buffers =
        [("position_encodings",
          GPUBuffer.mk (dev.bufId "position_encodings")
            (MAX_SEQ_LENGTH * EMBEDDING_DIM * 4)),
         ("layer_norm_weights", GPUBuffer.mk (dev.bufId "layer_norm_weights") 16),
         ("layer_norm_bias", GPUBuffer.mk (dev.bufId "layer_norm_bias") 16)]) ∧
    (∀ st dev pn input sl, (process_batch st dev pn input sl).state = st) ∧
    (∀ st dev input, (process_sequence st dev input).state = st) ∧
    (∀ st dev emb, (quantize_embeddings st dev emb).state = st) ∧
    (∀ st dev qv db k, (ip_search st dev qv db k).state = st) := by
  refine ⟨?_, batch_state_eq, seq_state_eq, quantize_state_eq, search_state_eq⟩
  intro dev h
  rw [initialize_characterization] at h ⊢
  by_cases hload : dev.loadOk = false
  · rw [if_pos hload] at h
    exact absurd h (by simp)
  · rw [if_neg hload] at h ⊢
    by_cases hall : pipeline_functions.all (entryOk dev)
    · rw [if_pos hall]
      have hsb := (addAll_frame dev pipeline_functions mkMetalCompute).1
      show (initialize_shared_buffers _ dev).shared_buffers = _
      unfold initialize_shared_buffers
      dsimp only
      rw [hsb]
      rfl
    · rw [if_neg hall] at h
      exact absurd h (by simp)

/-- C9: the zero-length input sequence is rejected deterministically:
whatever the device oracle does, `process_sequence` returns `None` — the
empty input makes the embed stage's thread-group size zero and the Python
ceiling division raise before any dispatch — and no kernel is ever
dispatched. -/
theorem zero_length_rejected (st : MCState) (dev : SeqDevice) (input : NDArray)
    (hne : input.shape ≠ []) (hlen : input.len = 0) :
    (process_sequence st dev input).result = none ∧
    ∀ q g t, Event.dispatch q g t ∉ (process_sequence st dev input).events := by
  have hsz : input.size = 0 := by
    rcases hs : input.shape with - | ⟨a, tl⟩
    · exact absurd hs hne
    · have ha : a = 0 := by
        have hl2 := hlen
        rw [NDArray.len, hs] at hl2
        simpa using hl2
      rw [NDArray.size, hs, ha]
      simp
  have hres : (process_batch st dev.embedDev "embed" input none).result = none := by
    cases hr : (process_batch st dev.embedDev "embed" input none).result with
    | none => rfl
    | some out =>
      obtain ⟨-, pl, hl, hgs⟩ := batch_result_some hr
      rw [hsz, gridFor_zero pl _ (by decide)] at hgs
      simp at hgs
  have heq := seq_eq_embed_none hres
  refine ⟨by rw [heq], ?_⟩
  intro q g t hm
  rw [heq] at hm
  dsimp only at hm
  obtain ⟨hq, pl, hl, hg⟩ := dispatch_mem_batch hm
  rw [hsz, gridFor_zero pl _ (by decide)] at hg
  cases hg

/-- C9 witness: the empty float32 sequence on an all-succeeding device. -/
theorem zero_length_rejected_witness :
    (process_sequence stOK devSeqOK (NDArray.mk [0] DType.float32)).result = none ∧
    ∀ q g t, Event.dispatch q g t ∉
      (process_sequence stOK devSeqOK (NDArray.mk [0] DType.float32)).events :=
  zero_length_rejected stOK devSeqOK (NDArray.mk [0] DType.float32)
    (by decide) (by decide)

/-- C10: the quantization parameters are the constants `scale = 0.1` and
`zero_point = 128.0` fixed at construction; no method recalibrates them
(`initialize` and every request method leave both fields unchanged); and
every scalar constant `quantize_embeddings` binds is exactly one of the two,
as a 4-byte float32 argument — `scale` at buffer index 2, `zero_point` at
buffer index 3 — with both bound whenever the encoder bindings happen at
all. -/
theorem quantization_constants_fixed :
    mkMetalCompute.scale = 1 / 10 ∧ mkMetalCompute.zero_point = 128 ∧
    (∀ st dev, (initializeCompute st dev).2.scale = st.scale ∧
      (initializeCompute st dev).2.zero_point = st.zero_point) ∧
    (∀ st dev emb, (quantize_embeddings st dev emb).state = st) ∧
    (∀ st dev emb arg i,
      Event.setBytes arg i ∈ (quantize_embeddings st dev emb).events →
      (arg = KernelArg.float32 st.scale 4 ∧ i = 2) ∨
      (arg = KernelArg.float32 st.zero_point 4 ∧ i = 3)) ∧
    (∀ st dev emb,
      Event.setPipelineState "quantize_embeddings" ∈
        (quantize_embeddings st dev emb).events →
      Event.setBytes (KernelArg.float32 st.scale 4) 2 ∈
        (quantize_embeddings st dev emb).events ∧
      Event.setBytes (KernelArg.float32 st.zero_point 4) 3 ∈
        (quantize_embeddings st dev emb).events) := by
  refine ⟨rfl, rfl, ?_, quantize_state_eq, ?_, ?_⟩
  · intro st dev
    rw [initialize_characterization]
    by_cases hload : dev.loadOk = false
    · rw [if_pos hload]
      exact ⟨rfl, rfl⟩
    · rw [if_neg hload]
      by_cases hall : pipeline_functions.all (entryOk dev)
      · rw [if_pos hall]
        have hf := addAll_frame dev pipeline_functions st
        exact ⟨hf.2.1, hf.2.2⟩
      · rw [if_neg hall]
        have hf := addAll_frame dev (pipeline_functions.takeWhile (entryOk dev)) st
        exact ⟨hf.2.1, hf.2.2⟩
  · intro st dev emb arg i h
    rcases quantize_events_cases st dev emb with hc | hc | hc | ⟨rest, hc, hrest⟩
    · rw [hc] at h; simp at h
    · rw [hc] at h; simp at h
    · rw [hc] at h; simp at h
    · rw [hc] at h
      simp only [List.mem_cons] at h
      rcases h with h | h | h | h | h | h | h | h
      · exact absurd h (by simp)
      · exact absurd h (by simp)
      · exact absurd h (by simp)
      · exact absurd h (by simp)
      · exact absurd h (by simp)
      · obtain ⟨h1, h2⟩ := Event.setBytes.inj h
        exact .inl ⟨h1, h2⟩
      · obtain ⟨h1, h2⟩ := Event.setBytes.inj h
        exact .inr ⟨h1, h2⟩
      · rcases hrest with hrest | ⟨pl, hl, htpg, hrest⟩
        · rw [hrest] at h
          simp at h
        · rw [hrest] at h
          simp only [List.mem_singleton] at h
          exact absurd h (by simp)
  · intro st dev emb h
    rcases quantize_events_cases st dev emb with hc | hc | hc | ⟨rest, hc, -⟩
    · rw [hc] at h; simp at h
    · rw [hc] at h; simp at h
    · rw [hc] at h; simp at h
    · rw [hc]
      exact ⟨by simp, by simp⟩

end MetalModel
